import Mathlib

/-!
# Verification of `cr8/run_crate.py` (process supervisor / readiness engine)

A shallow embedding of the supervisor code in `src/cr8/run_crate.py`:

* `Timeout` / `timeout_expired` — the bounded poller class (`Timeout` in the
  source).  Wall-clock time is modelled by a rational `now` parameter; the
  poller's internal side effects (the `_first_ok` flip, the `time.sleep`) are
  made explicit as a returned state and an ordered event list.
* `waitAux` / `wait_untilWith` — the `wait_until` driving loop.  The idealised
  clock advances by the poll interval exactly when the poller slept; recursion
  is fuel-indexed (`none` = fuel exhausted, `some true` = predicate succeeded,
  `some false` = `TimeoutError` raised).
* `CrateNode_start` — the readiness sequence of `CrateNode.start` with the
  three probes and the diagnostic handler, producing an ordered event trace.
* `CrateNode_stop` — `CrateNode.stop` over an explicit filesystem.
* `crateNodeInit` — the `CrateNode.__init__` treatment of the caller-supplied
  `env` / `settings` dictionaries (Python aliasing made explicit).
* `matchAddr` / `AddrConsumer_parse` / `AddrConsumer_send` — the
  `AddrConsumer` log-line recognizer, a hand-compiled backtracking matcher for
  `ADDRESS_RE` with Python `re.match` semantics (anchored, greedy, leftmost
  alternative first).
* `cluster_state_200` — the HTTP health probe with its try/except structure.
-/

/-! ## The bounded poller (`Timeout`) -/

/-- State of a `Timeout` object (`Timeout.__init__`): construction time,
sleep interval, the first-call flag and the timeout duration. -/
structure Timeout where
  start_time : ℚ
  sleep : ℚ
  first_ok : Bool
  timeout : ℚ
deriving DecidableEq, Repr

/-- Constructor `Timeout(timeout, sleep=0.1)`. -/
def Timeout.mk0 (timeout : ℚ) (sleep : ℚ := 1/10) : Timeout :=
  ⟨0, sleep, true, timeout⟩

/-- Observable events of one `timeout_expired` call: the expiry decision
(with its value) and the `time.sleep` call. -/
inductive TEv
  | decided (expired : Bool)
  | slept
deriving DecidableEq, Repr

/-- Result of one `timeout_expired()` call: the Python return value
(`False`/`True`/implicit `None`), the successor object state, and the ordered
list of events that happened during the call. -/
structure TimeoutStep where
  result : Option Bool
  state : Timeout
  events : List TEv
deriving DecidableEq, Repr

/-- The closure `timeout_expired` inside `Timeout.__init__`, called at
wall-clock time `now`:

```python
def timeout_expired():
    if self._first_ok:
        self._first_ok = False
        return False
    now = time.time()
    if (now - self.start_time) > self.timeout:
        return True
    if self.sleep:
        time.sleep(self.sleep)
```
-/
def timeout_expired (st : Timeout) (now : ℚ) : TimeoutStep :=
  if st.first_ok then
    ⟨some false, { st with first_ok := false }, [.decided false]⟩
  else if now - st.start_time > st.timeout then
    ⟨some true, st, [.decided true]⟩
  else if st.sleep ≠ 0 then
    ⟨none, st, [.decided false, .slept]⟩
  else
    ⟨none, st, [.decided false]⟩

/-- The loop of `wait_until` driven by `Timeout.__call__`, with an idealised
clock: time advances by `st.sleep` exactly when the poller slept (predicate
evaluation itself takes no time).  `some false` models the raised
`TimeoutError`, `some true` a normal return (predicate truthy), `none` fuel
exhaustion (a model artifact only). -/
def waitAux (pred : ℚ → Bool) : ℕ → Timeout → ℚ → Option Bool
  | 0, _, _ => none
  | fuel + 1, st, now =>
    let step := timeout_expired st now
    match step.result with
    | some true => some false
    | _ =>
      let now' := if TEv.slept ∈ step.events then now + st.sleep else now
      if pred now' then some true else waitAux pred fuel step.state now'

/-- Source `wait_until(predicate, timeout)` with an explicit poll interval `S`
(the source fixes `S = 0.1` via the `Timeout` default). -/
def wait_untilWith (pred : ℚ → Bool) (T S : ℚ) (fuel : ℕ) : Option Bool :=
  waitAux pred fuel ⟨0, S, true, T⟩ 0

/-- Source `wait_until(predicate, timeout)` exactly as in the source
(`Timeout(timeout)`, i.e. poll interval `0.1`). -/
def wait_until (pred : ℚ → Bool) (T : ℚ) (fuel : ℕ) : Option Bool :=
  wait_untilWith pred T (1/10) fuel

/-! ## Python `str.replace` (used for the `http://` → `https://` upgrade) -/

/-- Replace every non-overlapping occurrence of `pat` by `rep`, scanning left
to right — Python `str.replace` for a non-empty pattern.  Fuel-indexed so the
recursion is structural; one character is consumed per step, so any fuel of
at least the input length gives the untruncated result. -/
def replaceFuel (pat rep : List Char) : ℕ → List Char → List Char
  | 0, s => s
  | _ + 1, [] => []
  | f + 1, c :: rest =>
    if pat ≠ [] ∧ pat.isPrefixOf (c :: rest) then
      rep ++ replaceFuel pat rep f (rest.drop (pat.length - 1))
    else
      c :: replaceFuel pat rep f rest

/-- Python `s.replace(pat, rep)` on character lists (non-empty `pat`). -/
def replaceAux (pat rep s : List Char) : List Char :=
  replaceFuel pat rep s.length s

/-- Python `s.replace(pat, rep)` on strings (non-empty `pat`). -/
def pyReplace (s pat rep : String) : String :=
  ⟨replaceAux pat.data rep.data s.data⟩

/-! ## `CrateNode.start` — readiness sequence and failure diagnostics

The three `wait_until` stages of `start()` are abstracted over oracles: the
poll-timing of each stage is covered by the `Timeout`/`wait_untilWith`
theorems, so here a stage is summarised by the list of successive probe
outcomes the poller observed (the stage succeeds as soon as a probe returns
`true`, and times out when the list is exhausted). -/

/-- Observable events of a `start()` run. -/
inductive StartEv
  | portProbe (ok : Bool)
  | sslProbe (ok : Bool)
  | healthProbe (ok : Bool)
  | readLogAttempt (path : String) (found : Bool)
  | emitLine (s : String)
deriving DecidableEq, Repr

/-- One `wait_until(lambda: probe(...))` stage: run the probe until it first
returns `true` (success) or the outcome list is exhausted (timeout).  Returns
the probe outcomes actually observed, in order, and whether the stage
succeeded. -/
def runWaitProbes : List Bool → List Bool × Bool
  | [] => ([], false)
  | b :: rest =>
    if b then ([true], true)
    else
      let (t, s) := runWaitProbes rest
      (b :: t, s)

/-- External behaviour that a single `start()` run observes. -/
structure StartEnv where
  /-- The `http` publish address discovered by the `AddrConsumer` callback
  within the first wait, if any (`none` = stage-1 timeout). -/
  addr : Option String
  /-- Successive `_is_up(host, port)` outcomes during the second wait. -/
  portResults : List Bool
  /-- The `_has_ssl(host, port)` outcome. -/
  ssl : Bool
  /-- Successive `cluster_state_200(url)` outcomes during the third wait. -/
  healthResults : List Bool
  /-- `line_buf.lines` at the time a `TimeoutError` is handled. -/
  bufLines : List String
  /-- Contents of `<logs_path>/<cluster_name>.log` (`none` = file absent). -/
  logFileLines : Option (List String)
  /-- `self.logs_path`. -/
  logs_path : String
  /-- `self.cluster_name`. -/
  cluster_name : String
deriving Repr

/-- The path `logfile = os.path.join(self.logs_path, self.cluster_name + '.log')`. -/
def StartEnv.logfile (env : StartEnv) : String :=
  env.logs_path ++ "/" ++ env.cluster_name ++ ".log"

/-- Source `_try_print_log(logfile)`: open the file and `log.error` every line;
any failure (file absent) is swallowed. -/
def try_print_log (path : String) (file : Option (List String)) : List StartEv :=
  match file with
  | none => [.readLogAttempt path false]
  | some ls => .readLogAttempt path true :: ls.map .emitLine

/-- The `except TimeoutError` handler of `start()`:

```python
if not line_buf.lines:
    _try_print_log(logfile)
else:
    for line in line_buf.lines:
        log.error(line)
raise
```
-/
def startOnTimeout (env : StartEnv) : List StartEv :=
  if env.bufLines.isEmpty then try_print_log env.logfile env.logFileLines
  else env.bufLines.map .emitLine

/-- The readiness sequence of `CrateNode.start` (the `try` block and its
handler).  Result: the ordered event trace, and `some url` when the run
reaches Ready (the final `self.http_url`) or `none` when a `TimeoutError`
propagated to the caller. -/
def CrateNode_start (env : StartEnv) : List StartEv × Option String :=
  match env.addr with
  | none => (startOnTimeout env, none)
  | some addr =>
    let url0 := "http://" ++ addr
    let (pbs, pok) := runWaitProbes env.portResults
    let pe := pbs.map StartEv.portProbe
    if pok then
      let url1 := if env.ssl then pyReplace url0 "http://" "https://" else url0
      let (hbs, hok) := runWaitProbes env.healthResults
      let he := hbs.map StartEv.healthProbe
      if hok then (pe ++ StartEv.sslProbe env.ssl :: he, some url1)
      else (pe ++ StartEv.sslProbe env.ssl :: he ++ startOnTimeout env, none)
    else (pe ++ startOnTimeout env, none)

/-! ## `CrateNode.stop` -/

/-- Observable events of `CrateNode.stop`. -/
inductive StopEv
  | terminate
  | communicate
  | rmtreeCall (p : String)
deriving DecidableEq, Repr

/-- Python `s.split(',')`, accumulator on the current (reversed) field. -/
def splitCommaAux (acc : List Char) : List Char → List (List Char)
  | [] => [acc.reverse]
  | c :: rest =>
    if c = ',' then acc.reverse :: splitCommaAux [] rest
    else splitCommaAux (c :: acc) rest

/-- Python `s.split(',')`: always at least one field; `""` gives `[""]`. -/
def pySplitComma (s : String) : List String :=
  (splitCommaAux [] s.data).map (fun l => ⟨l⟩)

/-- The fields of a `CrateNode` that `stop()` reads. `process = true` models a
non-`None` `self.process` (a `Popen` object is always truthy, terminated or
not). -/
structure StopState where
  process : Bool
  keep_data : Bool
  data_path : String
deriving DecidableEq, Repr

/-- The `for p in path: shutil.rmtree(p)` loop over an explicit filesystem
(the set of existing paths).  `shutil.rmtree` on a missing path raises
`FileNotFoundError`, which propagates and aborts the loop. -/
def rmtreeLoop (fs : List String) : List String → List StopEv × Except String (List String)
  | [] => ([], .ok fs)
  | p :: rest =>
    if fs.contains p then
      let (evs, r) := rmtreeLoop (fs.filter (fun q => q ≠ p)) rest
      (.rmtreeCall p :: evs, r)
    else ([.rmtreeCall p], .error p)

/-- Source `CrateNode.stop`:

```python
def stop(self):
    if self.process:
        self.process.terminate()
        self.process.communicate(timeout=10)
    if not self.keep_data:
        path = self.data_path.split(',')
        for p in path:
            shutil.rmtree(p)
```

Returns the event trace, the resulting filesystem (or the path whose
deletion raised), and the object state afterwards — note the method never
assigns `self.process` or any other field, so the state is returned
unchanged. -/
def CrateNode_stop (st : StopState) (fs : List String) :
    List StopEv × Except String (List String) × StopState :=
  let evs1 : List StopEv := if st.process then [.terminate, .communicate] else []
  if st.keep_data then (evs1, .ok fs, st)
  else
    let paths := pySplitComma st.data_path
    let (evs2, r) := rmtreeLoop fs paths
    (evs1 ++ evs2, r, st)

/-! ## `CrateNode.__init__` — treatment of the caller's `env`/`settings`

Python dictionaries are modelled as insertion-ordered association lists; the
aliasing of `self.env = env or {}` is made explicit by returning, next to the
node's own fields, the contents of the caller's two dictionary objects after
the constructor ran. -/

/-- A Python value as it occurs in the settings/env dicts. -/
inductive PyVal
  | s (v : String)
  | b (v : Bool)
  | i (v : Int)
deriving DecidableEq, Repr

/-- Python truthiness of a `PyVal`. -/
def PyVal.truthy : PyVal → Bool
  | .s v => v ≠ ""
  | .b v => v
  | .i n => n ≠ 0

/-- An insertion-ordered Python dict. -/
abbrev PyDict := List (String × PyVal)

/-- Lookup `d[k]` / `d.get(k)`. -/
def PyDict.get? (d : PyDict) (k : String) : Option PyVal :=
  (d.find? (fun kv => kv.1 = k)).map (·.2)

/-- Membership test `k in d`. -/
def PyDict.hasKey (d : PyDict) (k : String) : Bool :=
  d.any (fun kv => kv.1 = k)

/-- Assignment `d[k] = v`: overwrite in place (keeping insertion order) or append. -/
def PyDict.set (d : PyDict) (k : String) (v : PyVal) : PyDict :=
  if d.hasKey k then d.map (fun kv => if kv.1 = k then (k, v) else kv)
  else d ++ [(k, v)]

/-- Python `d.setdefault(k, v)`. -/
def PyDict.setdefault (d : PyDict) (k : String) (v : PyVal) : PyDict :=
  if d.hasKey k then d else d ++ [(k, v)]

/-- Python `d.update(e)`. -/
def PyDict.updateWith (d e : PyDict) : PyDict :=
  e.foldl (fun acc kv => acc.set kv.1 kv.2) d

/-- Constant `DEFAULT_SETTINGS` from the module top level. -/
def DEFAULT_SETTINGS : PyDict :=
  [("cluster.routing.allocation.disk.watermark.low", .s "1b"),
   ("cluster.routing.allocation.disk.watermark.high", .s "1b"),
   ("discovery.initial_state_timeout", .i 0),
   ("network.host", .s "127.0.0.1"),
   ("udc.enabled", .b false)]

/-- Source `_get_settings(settings)`: copy the defaults and merge the caller's
settings into the copy (the caller's dict is only read). -/
def get_settings (settings : Option PyDict) : PyDict :=
  match settings with
  | none => DEFAULT_SETTINGS
  | some s => DEFAULT_SETTINGS.updateWith s

/-- What `CrateNode.__init__` leaves behind: the caller's two dictionary
objects (as they read after construction) and the node's own fields. -/
structure InitResult where
  /-- Contents of the caller's `env` object after `__init__` (the object the
  caller passed; `none` if the caller passed `None`). -/
  callerEnv : Option PyDict
  /-- Contents of the caller's `settings` object after `__init__`. -/
  callerSettings : Option PyDict
  /-- `self.env`. -/
  selfEnv : PyDict
  /-- The local `settings` dict after all `__init__` writes (the dict the
  launch arguments are formatted from). -/
  cmdSettings : PyDict
  /-- `self.data_path`. -/
  data_path : String
  /-- `self.logs_path`. -/
  logs_path : String
  /-- `self.cluster_name`. -/
  cluster_name : String
  /-- `self.keep_data`. -/
  keep_data : Bool
deriving Repr

/-- Python tuple comparison `a < b` on version triples (lexicographic). -/
def versionLt (a b : ℕ × ℕ × ℕ) : Bool :=
  a.1 < b.1 ∨ (a.1 = b.1 ∧ (a.2.1 < b.2.1 ∨ (a.2.1 = b.2.1 ∧ a.2.2 < b.2.2)))

/-- Python `x or y` on an optional string setting value (Python `or`:
falsy left operand selects the right one). -/
def pyOrStr (v : Option PyVal) (dflt : String) : String :=
  match v with
  | some (.s p) => if p ≠ "" then p else dflt
  | _ => dflt

/-- Source `CrateNode.__init__(crate_dir, data_path, env, settings, keep_data)`
restricted to its dictionary- and path-handling effects.

* `env0` / `settings0`: the caller's dicts (`none` = `None`);
* `java_home`: `os.environ.get('JAVA_HOME', '')`;
* `tmpdir`: the fresh directory `tempfile.mkdtemp()` would return;
* `version`: the version extracted from `crate_dir`;
* `crate_dir`: used for the default `logs_path`.

`self.env = env or {}` aliases the caller's object exactly when `env0` is a
non-empty dict, so the subsequent `setdefault('JAVA_HOME', ...)` writes
through to the caller in that case; `settings` is first copied by
`_get_settings`, so every later settings write lands on the copy. -/
def crateNodeInit (env0 settings0 : Option PyDict) (java_home : String)
    (tmpdir : String) (version : ℕ × ℕ × ℕ) (crate_dir : String)
    (keep_data : Bool) : InitResult :=
  let aliasEnv : Bool := match env0 with
    | some d => !d.isEmpty
    | none => false
  let selfEnv0 : PyDict := match env0 with
    | some d => if d.isEmpty then [] else d
    | none => []
  let selfEnv1 := selfEnv0.setdefault "JAVA_HOME" (.s java_home)
  let settings1 := get_settings settings0
  let settings2 :=
    if versionLt version (1, 1, 0) then
      settings1.setdefault "discovery.zen.ping.multicast.enabled" (.b false)
    else settings1
  let data_path := pyOrStr (settings2.get? "path.data") tmpdir
  let logs_path := pyOrStr (settings2.get? "path.logs") (crate_dir ++ "/logs")
  let cluster_name := pyOrStr (settings2.get? "cluster.name") "cr8"
  let settings3 := (settings2.set "path.data" (.s data_path)).set
    "cluster.name" (.s cluster_name)
  { callerEnv := if aliasEnv then some selfEnv1 else env0
    callerSettings := settings0
    selfEnv := selfEnv1
    cmdSettings := settings3
    data_path := data_path
    logs_path := logs_path
    cluster_name := cluster_name
    keep_data := keep_data }

/-! ## The health probe `cluster_state_200` -/

/-- A JSON value as produced by `json.loads` (numeric values in the probe's
interface are integers — section 6 of the design: `{"status": <integer>}`). -/
inductive JVal
  | jnull
  | jbool (b : Bool)
  | jint (n : Int)
  | jstr (s : String)
  | jarr (xs : List JVal)
  | jobj (kvs : List (String × JVal))

/-- Exceptions the `try` block of `cluster_state_200` can raise. -/
inductive PyErr
  | urlError
  | jsonError
  | keyError
  | typeError
  | valueError
deriving DecidableEq, Repr

/-- What the `urlopen(url)` + `r.read().decode('utf-8')` + `json.loads`
chain yields for one URL: a network/decoding failure, a body that
`json.loads` rejects, or a parsed JSON value. -/
inductive HttpResult
  | netErr
  | body (parsed : Option JVal)

/-- Python `int(s)` on a string: optional surrounding spaces, optional sign, one or
more digits; anything else raises `ValueError`. -/
def pyIntOfString (s : String) : Option Int :=
  let t := s.data.dropWhile (· = ' ')
  let t := (t.reverse.dropWhile (· = ' ')).reverse
  let (sign, digits) :=
    match t with
    | '-' :: rest => ((-1 : Int), rest)
    | '+' :: rest => ((1 : Int), rest)
    | _ => ((1 : Int), t)
  if digits ≠ [] ∧ digits.all Char.isDigit then
    some (sign * (digits.foldl (fun acc c => acc * 10 + (c.toNat - 48)) 0 : ℕ))
  else none

/-- Python `int(x)` on a JSON value (`None`/lists/dicts raise `TypeError`,
non-numeric strings raise `ValueError`). -/
def pyInt : JVal → Option Int
  | .jint n => some n
  | .jbool b => some (if b then 1 else 0)
  | .jstr s => pyIntOfString s
  | _ => none

/-- Subscript `p['status']` on a parsed JSON value: a dict lookup (`KeyError` when the
key is missing, `TypeError` when `p` is not a dict). -/
def jsonStatus : JVal → Except PyErr JVal
  | .jobj kvs =>
    match (kvs.find? (fun kv => kv.1 = "status")).map (·.2) with
    | some v => .ok v
    | none => .error .keyError
  | _ => .error .typeError

/-- The `try` block of `cluster_state_200`:

```python
with urlopen(url, context=NO_SSL_VERIFY_CTX) as r:
    p = json.loads(r.read().decode('utf-8'))
    return int(p['status']) == 200
```
-/
def cluster_state_try (resp : HttpResult) : Except PyErr Bool :=
  match resp with
  | .netErr => .error .urlError
  | .body none => .error .jsonError
  | .body (some p) =>
    match jsonStatus p with
    | .error e => .error e
    | .ok v =>
      match pyInt v with
      | some n => .ok (n = 200)
      | none => .error (match v with | .jstr _ => .valueError | _ => .typeError)

/-- Source `cluster_state_200(url)`: the `try` block with its `except Exception`
handler — every exception becomes `False`, nothing propagates. -/
def cluster_state_200 (resp : HttpResult) : Bool :=
  match cluster_state_try resp with
  | .ok b => b
  | .error _ => false

/-! ## `AddrConsumer` — the log-line address recognizer

`ADDRESS_RE`, hand-compiled to a backtracking matcher over `List Char` with
Python `re.match` semantics: anchored at the start, partial match allowed at
the end, greedy repetition (longest first), alternatives tried left to right,
`.` matching any character except a newline.  Every repetition operator in the
pattern repeats a single-character item, so greedy character-class stars with
a continuation argument implement the whole pattern. -/

/-- The class `[\w\d\.-]` (`\w` = alphanumeric or underscore). -/
def isWordDashChar (c : Char) : Bool :=
  c.isAlphanum || c = '_' || c = '.' || c = '-'

/-- The class `[\d\.:]` of the `addr` group. -/
def isAddrChar (c : Char) : Bool :=
  c.isDigit || c = '.' || c = ':'

/-- The regex `.` (anything but a newline; `re.DOTALL` is not set). -/
def isDotChar (c : Char) : Bool :=
  c ≠ '\n'

/-- A literal: consume `pat` exactly, then continue. -/
def litK {α : Type} (pat s : List Char) (k : List Char → Option α) : Option α :=
  if pat.isPrefixOf s then k (s.drop pat.length) else none

/-- A single character of a class, then continue. -/
def oneK {α : Type} (f : Char → Bool) (s : List Char) (k : List Char → Option α) :
    Option α :=
  match s with
  | c :: rest => if f c then k rest else none
  | [] => none

/-- Greedy star over a character class: try the longest run first, then
backtrack one character at a time. -/
def starK {α : Type} (f : Char → Bool) (s : List Char) (k : List Char → Option α) :
    Option α :=
  match s with
  | [] => k []
  | c :: rest =>
    if f c then (starK f rest k).orElse (fun _ => k (c :: rest))
    else k (c :: rest)

/-- Greedy capturing star: like `starK`, also handing the consumed run to the
continuation. -/
def starCapK {α : Type} (f : Char → Bool) (s : List Char)
    (k : List Char → List Char → Option α) : Option α :=
  match s with
  | [] => k [] []
  | c :: rest =>
    if f c then
      (starCapK f rest (fun cap r => k (c :: cap) r)).orElse (fun _ => k [] (c :: rest))
    else k [] (c :: rest)

/-- A greedy `(?: ... )?` group: try the body first, fall back to skipping. -/
def optK {α : Type} (m : List Char → (List Char → Option α) → Option α)
    (s : List Char) (k : List Char → Option α) : Option α :=
  (m s k).orElse (fun _ => k s)

/-- One atom of a protocol alternative: a literal character or an unescaped
regex `.` (the dots in `o.e.h.HttpServer` / `o.e.t.TransportService` match
any character). -/
inductive RAtom
  | lit (c : Char)
  | anyc
deriving DecidableEq, Repr

/-- Match a fixed sequence of atoms, returning the consumed text and the
rest. -/
def matchAtoms : List RAtom → List Char → Option (List Char × List Char)
  | [], s => some ([], s)
  | _ :: _, [] => none
  | a :: as, c :: rest =>
    let ok : Bool := match a with
      | .lit l => c = l
      | .anyc => c ≠ '\n'
    if ok then (matchAtoms as rest).map (fun pr => (c :: pr.1, pr.2)) else none

/-- A string of literal atoms. -/
def litAtoms (s : String) : List RAtom :=
  s.data.map RAtom.lit

/-- The five alternatives of the `protocol` group, in source order:
`http|o.e.h.HttpServer|psql|transport|o.e.t.TransportService`. -/
def protoAlts : List (List RAtom) :=
  [litAtoms "http",
   [.lit 'o', .anyc, .lit 'e', .anyc, .lit 'h', .anyc] ++ litAtoms "HttpServer",
   litAtoms "psql",
   litAtoms "transport",
   [.lit 'o', .anyc, .lit 'e', .anyc, .lit 't', .anyc] ++ litAtoms "TransportService"]

/-- The `protocol` alternation with capture: alternatives are tried left to
right, and a later alternative is retried when the continuation fails. -/
def protoAltK {α : Type} (s : List Char) (k : List Char → List Char → Option α) :
    Option α :=
  protoAlts.foldr
    (fun alt acc =>
      (match matchAtoms alt s with
       | some (cap, rest) => k cap rest
       | none => none).orElse (fun _ => acc))
    none

/-- Matcher `ADDRESS_RE.match(line)` on a character list: on success, the two named
groups `(protocol, addr)` as matched. -/
def matchAddrL (s0 : List Char) : Option (List Char × List Char) :=
  starK isDotChar s0 fun s1 =>
  litK ['['] s1 fun s2 =>
  protoAltK s2 fun proto s3 =>
  oneK (· = ' ') s3 fun s4 =>
  starK (· = ' ') s4 fun s5 =>
  litK ("] [".data) s5 fun s6 =>
  starK isDotChar s6 fun s7 =>
  litK ("] ".data) s7 fun s8 =>
  starK isDotChar s8 fun s9 =>
  litK ("publish_address \x7b".data) s9 fun s10 =>
  optK (fun s k =>
      (litK ("inet[".data) s fun t1 =>
        starK isWordDashChar t1 fun t2 =>
        litK ['/'] t2 k).orElse
      (fun _ => litK ['['] s k)) s10 fun s11 =>
  optK (fun s k =>
      oneK isWordDashChar s fun t1 =>
      starK isWordDashChar t1 fun t2 =>
      litK ['/'] t2 k) s11 fun s12 =>
  oneK isAddrChar s12 fun s13 =>
  starCapK isAddrChar s13 fun capRest s14 =>
  optK (litK [']']) s14 fun s15 =>
  litK ['\x7d'] s15 fun _ =>
  match s12 with
  | c0 :: _ => some (proto, c0 :: capRest)
  | [] => none

/-- Matcher `ADDRESS_RE.match(line)` restricted to its two named groups. -/
def matchAddr (line : String) : Option (String × String) :=
  (matchAddrL line.data).map (fun pr => (⟨pr.1⟩, ⟨pr.2⟩))

/-- Lookup `PROTOCOL_MAP.get(protocol, protocol)`. -/
def PROTOCOL_MAP_get (p : String) : String :=
  if p = "o.e.h.HttpServer" then "http"
  else if p = "o.e.t.TransportService" then "transport"
  else p

/-- Source `AddrConsumer._parse(line)`: `(None, None)` on no match, otherwise the
normalized protocol and the address. -/
def AddrConsumer_parse (line : String) : Option String × Option String :=
  match matchAddr line with
  | none => (none, none)
  | some (proto, addr) => (some (PROTOCOL_MAP_get proto), some addr)

/-- Source `AddrConsumer.send(line)`: the list of `on_addr` callback invocations it
makes (`if protocol:` guards the call; `None` and the empty string are
falsy). -/
def AddrConsumer_send (line : String) : List (String × String) :=
  match AddrConsumer_parse line with
  | (some p, some a) => if p ≠ "" then [(p, a)] else []
  | _ => []

/-- The `psql` log line of the `AddrConsumer._parse` doctest. -/
def psqlLogLine : String :=
  "[INFO ][psql  ] [8f64DTi] publish_address \x7b127.0.0.1:5432\x7d, bound_addresses \x7b127.0.0.1:5432\x7d"

/-- Probe events of a `start()` trace (as opposed to diagnostic events). -/
def StartEv.isProbe : StartEv → Bool
  | .portProbe _ => true
  | .sslProbe _ => true
  | .healthProbe _ => true
  | _ => false

/-- TLS-probe events of a `start()` trace. -/
def StartEv.isSsl : StartEv → Bool
  | .sslProbe _ => true
  | _ => false

deriving instance DecidableEq for Except

/-! ## Helper lemmas: the poller -/

theorem timeout_expired_first (st : Timeout) (now : ℚ) (h : st.first_ok = true) :
    timeout_expired st now =
      ⟨some false, { st with first_ok := false }, [.decided false]⟩ := by
  simp [timeout_expired, h]

theorem timeout_expired_expired (st : Timeout) (now : ℚ) (h1 : st.first_ok = false)
    (h2 : now - st.start_time > st.timeout) :
    timeout_expired st now = ⟨some true, st, [.decided true]⟩ := by
  simp [timeout_expired, h1, h2]

theorem timeout_expired_sleeps (st : Timeout) (now : ℚ) (h1 : st.first_ok = false)
    (h2 : ¬ now - st.start_time > st.timeout) (h3 : st.sleep ≠ 0) :
    timeout_expired st now = ⟨none, st, [.decided false, .slept]⟩ := by
  simp [timeout_expired, h1, h2, h3]

theorem waitAux_succ_first (pred : ℚ → Bool) (f : ℕ) (st : Timeout) (now : ℚ)
    (h : st.first_ok = true) :
    waitAux pred (f + 1) st now =
      if pred now then some true
      else waitAux pred f { st with first_ok := false } now := by
  rw [waitAux, timeout_expired_first st now h]
  simp

theorem waitAux_succ_expired (pred : ℚ → Bool) (f : ℕ) (st : Timeout) (now : ℚ)
    (h1 : st.first_ok = false) (h2 : now - st.start_time > st.timeout) :
    waitAux pred (f + 1) st now = some false := by
  rw [waitAux, timeout_expired_expired st now h1 h2]

theorem waitAux_succ_sleeps (pred : ℚ → Bool) (f : ℕ) (st : Timeout) (now : ℚ)
    (h1 : st.first_ok = false) (h2 : ¬ now - st.start_time > st.timeout)
    (h3 : st.sleep ≠ 0) :
    waitAux pred (f + 1) st now =
      if pred (now + st.sleep) then some true
      else waitAux pred f st (now + st.sleep) := by
  rw [waitAux, timeout_expired_sleeps st now h1 h2 h3]
  simp

/-- Once expiry is reachable within the remaining fuel, a non-first run of
the poll loop ends in a raised `TimeoutError` whenever the predicate is false
throughout `[0, T + 2S]`. -/
theorem waitAux_runs_out (T S : ℚ) (pred : ℚ → Bool) (hS : 0 < S)
    (hpred : ∀ t : ℚ, 0 ≤ t → t ≤ T + 2 * S → pred t = false) :
    ∀ (fuel : ℕ) (t : ℚ), 0 ≤ t → T < t + (fuel : ℚ) * S →
      waitAux pred (fuel + 1) ⟨0, S, false, T⟩ t = some false := by
  intro fuel
  induction fuel with
  | zero =>
    intro t ht hlt
    refine waitAux_succ_expired pred 0 _ t rfl ?_
    have hTt : T < t := by simpa using hlt
    simpa using hTt
  | succ n ih =>
    intro t ht hlt
    by_cases hexp : t - (0 : ℚ) > T
    · exact waitAux_succ_expired pred (n + 1) _ t rfl hexp
    · have htT : t ≤ T := by simpa using hexp
      rw [waitAux_succ_sleeps pred (n + 1) _ t rfl hexp (by simpa using hS.ne')]
      have hpf : pred (t + S) = false := hpred _ (by linarith) (by linarith)
      simp only [hpf, if_neg, Bool.false_eq_true, if_false]
      refine ih (t + S) (by linarith) ?_
      have : ((n : ℚ) + 1) * S = (n : ℚ) * S + S := by ring
      push_cast at hlt ⊢
      linarith

/-- With the predicate false throughout `[0, T + 2S]`, no amount of fuel lets
a non-first run of the poll loop return normally. -/
theorem waitAux_never_true (T S : ℚ) (pred : ℚ → Bool) (hS : 0 < S)
    (hpred : ∀ t : ℚ, 0 ≤ t → t ≤ T + 2 * S → pred t = false) :
    ∀ (fuel : ℕ) (t : ℚ), 0 ≤ t →
      waitAux pred fuel ⟨0, S, false, T⟩ t ≠ some true := by
  intro fuel
  induction fuel with
  | zero => intro t ht; simp [waitAux]
  | succ n ih =>
    intro t ht
    by_cases hexp : t - (0 : ℚ) > T
    · rw [waitAux_succ_expired pred n _ t rfl hexp]; simp
    · have htT : t ≤ T := by simpa using hexp
      rw [waitAux_succ_sleeps pred n _ t rfl hexp (by simpa using hS.ne')]
      have hpf : pred (t + S) = false := hpred _ (by linarith) (by linarith)
      simp only [hpf, Bool.false_eq_true, if_false]
      exact ih (t + S) (by linarith)

/-! ## Claims C2, C3, C4 -/

/-- C2 counterexample.  The claim states that on every non-first check the
sleep happens before the expiry decision is made.  Take a `Timeout` with
`start_time = 0`, `sleep = 1`, `first_ok = False`, `timeout = 0`, checked at
wall-clock time `1`: this non-first check produces the single event
`decided true` — the expiry decision is made immediately and no sleep
happens at all during the call, so no sleep precedes the decision. -/
theorem C2_counterexample :
    (timeout_expired ⟨0, 1, false, 0⟩ 1).events = [TEv.decided true] ∧
    TEv.slept ∉ (timeout_expired ⟨0, 1, false, 0⟩ 1).events := by
  rw [timeout_expired_expired ⟨0, 1, false, 0⟩ 1 rfl (by norm_num)]
  simp

/-- C2 (amended): on every non-first check of the bounded poller the expiry
decision comes first, computed from the wall-clock time at the start of the
check; the poll-interval sleep happens only after that decision and only when
the decision was "not expired" (and the interval is nonzero).  The check
reports "expired" exactly when wall-clock time since construction exceeds the
timeout. -/
theorem C2_nonfirst_check_decides_before_sleep (st : Timeout) (now : ℚ)
    (h : st.first_ok = false) :
    (timeout_expired st now).events =
      TEv.decided (decide (now - st.start_time > st.timeout)) ::
        (if now - st.start_time > st.timeout then []
         else if st.sleep ≠ 0 then [TEv.slept] else []) ∧
    ((timeout_expired st now).result = some true ↔
      now - st.start_time > st.timeout) := by
  by_cases hexp : now - st.start_time > st.timeout
  · rw [timeout_expired_expired st now h hexp]
    simp [hexp]
  · by_cases hs : st.sleep = 0
    · simp [timeout_expired, h, hexp, hs]
    · rw [timeout_expired_sleeps st now h hexp hs]
      simp [hexp, hs]

/-- C2 witness: the amended theorem at `start_time = 0`, `sleep = 1`,
`timeout = 3`, checked at time `1`: decision `decided false` first, then the
sleep. -/
theorem C2_witness :
    (timeout_expired ⟨0, 1, false, 3⟩ 1).events = [TEv.decided false, TEv.slept] ∧
    (timeout_expired ⟨0, 1, false, 3⟩ 1).result ≠ some true := by
  have h := C2_nonfirst_check_decides_before_sleep ⟨0, 1, false, 3⟩ 1 rfl
  constructor
  · rw [h.1]; norm_num
  · rw [Ne, h.2]; norm_num

/-- C3: the very first check of a freshly constructed poller returns
"not expired" without consulting the clock and without sleeping, whatever
the timeout (including `0`) and however much time has elapsed; consequently
`wait_until` evaluates its predicate at least once — if the predicate already
holds at time `0`, `wait_until` returns normally for every timeout value,
before any sleep or `TimeoutError`. -/
theorem C3_first_check_immediate :
    (∀ (st : Timeout) (now : ℚ), st.first_ok = true →
      (timeout_expired st now).result = some false ∧
      TEv.slept ∉ (timeout_expired st now).events) ∧
    (∀ (T S : ℚ) (pred : ℚ → Bool) (fuel : ℕ), 1 ≤ fuel → pred 0 = true →
      wait_untilWith pred T S fuel = some true) := by
  constructor
  · intro st now h
    rw [timeout_expired_first st now h]
    simp
  · intro T S pred fuel hfuel hpred
    cases fuel with
    | zero => omega
    | succ f =>
      rw [wait_untilWith, waitAux_succ_first pred f _ 0 rfl, hpred]
      simp

/-- C3 witness: a poller with timeout `0` checked first at elapsed time `5`,
and `wait_until` with timeout `0` on an immediately-true predicate. -/
theorem C3_witness :
    (timeout_expired ⟨0, 1, true, 0⟩ 5).result = some false ∧
    TEv.slept ∉ (timeout_expired ⟨0, 1, true, 0⟩ 5).events ∧
    wait_untilWith (fun _ => true) 0 1 1 = some true :=
  ⟨(C3_first_check_immediate.1 ⟨0, 1, true, 0⟩ 5 rfl).1,
   (C3_first_check_immediate.1 ⟨0, 1, true, 0⟩ 5 rfl).2,
   C3_first_check_immediate.2 0 1 (fun _ => true) 1 le_rfl rfl⟩

/-- C4: for a timeout `T ≥ 0` and poll interval `S > 0`, if the predicate is
false at every instant up to `T + 2S` (so at every check the loop can make),
the `wait_until` loop never returns normally and raises `TimeoutError`
(modelled as the `some false` outcome; fuel is a model artifact, and some
sufficient fuel reaches the raise). -/
theorem C4_wait_until_raises_on_late_predicate (T S : ℚ) (pred : ℚ → Bool)
    (hT : 0 ≤ T) (hS : 0 < S)
    (hpred : ∀ t : ℚ, 0 ≤ t → t ≤ T + 2 * S → pred t = false) :
    (∀ fuel, wait_untilWith pred T S fuel ≠ some true) ∧
    (∃ fuel, wait_untilWith pred T S fuel = some false) := by
  have hp0 : pred 0 = false := hpred 0 le_rfl (by linarith)
  constructor
  · intro fuel
    cases fuel with
    | zero => simp [wait_untilWith, waitAux]
    | succ f =>
      rw [wait_untilWith, waitAux_succ_first pred f _ 0 rfl, hp0]
      simp only [Bool.false_eq_true, if_false]
      exact waitAux_never_true T S pred hS hpred f 0 le_rfl
  · obtain ⟨n, hn⟩ := exists_nat_gt (T / S)
    refine ⟨(n + 1) + 1, ?_⟩
    rw [wait_untilWith, waitAux_succ_first pred (n + 1) _ 0 rfl, hp0]
    simp only [Bool.false_eq_true, if_false]
    refine waitAux_runs_out T S pred hS hpred n 0 le_rfl ?_
    rw [zero_add]
    calc T = T / S * S := by field_simp
    _ < (n : ℚ) * S := by
        exact mul_lt_mul_of_pos_right hn hS

/-- C4 witness: timeout `1`, interval `1`, an always-false predicate. -/
theorem C4_witness :
    (∀ fuel, wait_untilWith (fun _ => false) 1 1 fuel ≠ some true) ∧
    (∃ fuel, wait_untilWith (fun _ => false) 1 1 fuel = some false) :=
  C4_wait_until_raises_on_late_predicate 1 1 (fun _ => false)
    (by norm_num) (by norm_num) (fun t _ _ => rfl)

/-! ## Claim C6 -/

set_option maxRecDepth 8000 in
/-- C6: a log line that the address pattern does not match is parsed to
`(None, None)` and triggers zero callback invocations; the doctest `psql`
line parses to exactly `('psql', '127.0.0.1:5432')` and triggers exactly one
callback invocation with that pair; the unstructured line `"NONE"` parses to
`(None, None)`. -/
theorem C6_addr_extractor :
    (∀ line : String, matchAddr line = none →
      AddrConsumer_parse line = (none, none) ∧ AddrConsumer_send line = []) ∧
    AddrConsumer_parse psqlLogLine = (some "psql", some "127.0.0.1:5432") ∧
    AddrConsumer_send psqlLogLine = [("psql", "127.0.0.1:5432")] ∧
    AddrConsumer_parse "NONE" = (none, none) := by
  refine ⟨?_, by decide, by decide, by decide⟩
  intro line h
  simp [AddrConsumer_parse, AddrConsumer_send, h]

/-- C6 witness: the no-match conjunct applied at the concrete line
`"NONE"`. -/
theorem C6_witness :
    AddrConsumer_parse "NONE" = (none, none) ∧ AddrConsumer_send "NONE" = [] ∧
    AddrConsumer_send psqlLogLine = [("psql", "127.0.0.1:5432")] :=
  ⟨(C6_addr_extractor.1 "NONE" (by decide)).1,
   (C6_addr_extractor.1 "NONE" (by decide)).2,
   C6_addr_extractor.2.2.1⟩

/-! ## Claim C7 -/

/-- C7: the health probe returns `True` exactly when the request chain
succeeded, the body parsed as a JSON object carrying a `status` field, and
that field's value coerces via `int()` to exactly `200` (for an
integer-valued `status` field — the shape the cluster-status endpoint is
specified to return — this is precisely `status = 200`); every exception of
the chain (network error, malformed body, missing/uncoercible field) is
caught and yields `False` — nothing propagates to the caller. -/
theorem C7_health_probe_characterization (resp : HttpResult) :
    (cluster_state_200 resp = true ↔
      ∃ kvs v, resp = .body (some (.jobj kvs)) ∧
        (kvs.find? (fun kv => kv.1 = "status")).map (·.2) = some v ∧
        pyInt v = some 200) ∧
    (∀ e, cluster_state_try resp = .error e → cluster_state_200 resp = false) ∧
    (∀ kvs n, resp = .body (some (.jobj kvs)) →
      (kvs.find? (fun kv => kv.1 = "status")).map (·.2) = some (.jint n) →
      (cluster_state_200 resp = true ↔ n = 200)) := by
  have hobj_none : ∀ kvs : List (String × JVal),
      (kvs.find? (fun kv => kv.1 = "status")).map (·.2) = none →
      cluster_state_200 (.body (some (.jobj kvs))) = false := by
    intro kvs hf
    simp [cluster_state_200, cluster_state_try, jsonStatus, hf]
  have hobj_badint : ∀ (kvs : List (String × JVal)) (v : JVal),
      (kvs.find? (fun kv => kv.1 = "status")).map (·.2) = some v →
      pyInt v = none →
      cluster_state_200 (.body (some (.jobj kvs))) = false := by
    intro kvs v hf hv
    simp [cluster_state_200, cluster_state_try, jsonStatus, hf, hv]
  have hobj_some : ∀ (kvs : List (String × JVal)) (v : JVal) (n : Int),
      (kvs.find? (fun kv => kv.1 = "status")).map (·.2) = some v →
      pyInt v = some n →
      cluster_state_200 (.body (some (.jobj kvs))) = decide (n = 200) := by
    intro kvs v n hf hv
    simp [cluster_state_200, cluster_state_try, jsonStatus, hf, hv]
  have hne : ∀ p : JVal, (∀ kvs : List (String × JVal), p ≠ .jobj kvs) →
      cluster_state_200 (.body (some p)) = false := by
    intro p hp
    cases p with
    | jobj kvs => exact absurd rfl (hp kvs)
    | jnull => simp [cluster_state_200, cluster_state_try, jsonStatus]
    | jbool b => simp [cluster_state_200, cluster_state_try, jsonStatus]
    | jint n => simp [cluster_state_200, cluster_state_try, jsonStatus]
    | jstr s => simp [cluster_state_200, cluster_state_try, jsonStatus]
    | jarr xs => simp [cluster_state_200, cluster_state_try, jsonStatus]
  refine ⟨?_, ?_, ?_⟩
  · constructor
    · intro h
      match resp with
      | .netErr => exact absurd h (by simp [cluster_state_200, cluster_state_try])
      | .body none => exact absurd h (by simp [cluster_state_200, cluster_state_try])
      | .body (some (.jnull)) => exact absurd h (by rw [hne _ (by intro kvs; exact fun hc => JVal.noConfusion hc)]; simp)
      | .body (some (.jbool b)) => exact absurd h (by rw [hne _ (by intro kvs; exact fun hc => JVal.noConfusion hc)]; simp)
      | .body (some (.jint n)) => exact absurd h (by rw [hne _ (by intro kvs; exact fun hc => JVal.noConfusion hc)]; simp)
      | .body (some (.jstr s)) => exact absurd h (by rw [hne _ (by intro kvs; exact fun hc => JVal.noConfusion hc)]; simp)
      | .body (some (.jarr xs)) => exact absurd h (by rw [hne _ (by intro kvs; exact fun hc => JVal.noConfusion hc)]; simp)
      | .body (some (.jobj kvs)) =>
        rcases hf : (kvs.find? (fun kv => kv.1 = "status")).map (·.2) with - | v
        · rw [hobj_none kvs hf] at h
          exact absurd h (by simp)
        · rcases hv : pyInt v with - | n
          · rw [hobj_badint kvs v hf hv] at h
            exact absurd h (by simp)
          · rw [hobj_some kvs v n hf hv] at h
            refine ⟨kvs, v, rfl, hf, ?_⟩
            rw [hv, of_decide_eq_true h]
    · rintro ⟨kvs, v, heq, hf, hv⟩
      subst heq
      rw [hobj_some kvs v 200 hf hv]
      simp
  · intro e he
    simp [cluster_state_200, he]
  · intro kvs n heq hf
    subst heq
    rw [hobj_some kvs (.jint n) n hf rfl]
    simp

/-- C7 witness: a network error yields `False`; a body `{"status": 200}`
yields `True`; a body `{"status": 404}` yields `False`. -/
theorem C7_witness :
    cluster_state_200 .netErr = false ∧
    cluster_state_200 (.body (some (.jobj [("status", .jint 200)]))) = true ∧
    cluster_state_200 (.body (some (.jobj [("status", .jint 404)]))) = false := by
  refine ⟨(C7_health_probe_characterization .netErr).2.1 .urlError rfl, ?_, ?_⟩
  · exact ((C7_health_probe_characterization _).2.2 [("status", .jint 200)] 200
      rfl (by simp [List.find?])).mpr rfl
  · have h := ((C7_health_probe_characterization _).2.2 [("status", .jint 404)] 404
      rfl (by simp [List.find?]))
    rcases hb : cluster_state_200 (.body (some (.jobj [("status", .jint 404)]))) with _ | _
    · rfl
    · exact absurd (by norm_num : (404 : Int) ≠ 200) (fun hne => hne (h.mp hb))

/-! ## Helper lemmas: `start()` -/

theorem runWaitProbes_eq_true (rs : List Bool) :
    ∀ ps, runWaitProbes rs = (ps, true) →
      ∃ pre, ps = pre ++ [true] ∧ ∀ b ∈ pre, b = false := by
  induction rs with
  | nil => intro ps h; simp [runWaitProbes] at h
  | cons b rest ih =>
    intro ps h
    rcases hr : runWaitProbes rest with ⟨t, s⟩
    cases b with
    | true =>
      rw [runWaitProbes] at h
      simp only [if_true] at h
      obtain rfl : ps = [true] := congrArg Prod.fst h.symm
      exact ⟨[], rfl, by simp⟩
    | false =>
      rw [runWaitProbes] at h
      simp only [hr, Bool.false_eq_true, if_false] at h
      have h1 : ps = false :: t := congrArg Prod.fst h.symm
      have h2 : s = true := congrArg Prod.snd h
      obtain ⟨pre, hpre, hall⟩ := ih t (by rw [hr, h2])
      refine ⟨false :: pre, by rw [h1, hpre]; rfl, ?_⟩
      intro x hx
      rcases List.mem_cons.mp hx with rfl | hx'
      · rfl
      · exact hall x hx'

theorem isPrefixOf_append_self : ∀ (l s : List Char), l.isPrefixOf (l ++ s) = true
  | [], _ => by simp [List.isPrefixOf]
  | c :: rest, s => by
    simp only [List.cons_append, List.isPrefixOf, Bool.and_eq_true, beq_self_eq_true,
      true_and]
    exact isPrefixOf_append_self rest s

theorem replaceFuel_eq_of_le (pat rep : List Char) :
    ∀ (f g : ℕ) (s : List Char), s.length ≤ f → s.length ≤ g →
      replaceFuel pat rep f s = replaceFuel pat rep g s := by
  intro f
  induction f with
  | zero =>
    intro g s hf _
    obtain rfl : s = [] := List.length_eq_zero.mp (Nat.le_zero.mp hf)
    cases g <;> rfl
  | succ f ih =>
    intro g s hf hg
    cases s with
    | nil => cases g <;> rfl
    | cons c rest =>
      obtain ⟨g', rfl⟩ : ∃ g', g = g' + 1 := by
        cases g with
        | zero => simp at hg
        | succ g' => exact ⟨g', rfl⟩
      have hf' : rest.length ≤ f := by simpa using hf
      have hg' : rest.length ≤ g' := by simpa using hg
      by_cases hc : pat ≠ [] ∧ pat.isPrefixOf (c :: rest)
      · rw [replaceFuel, replaceFuel, if_pos hc, if_pos hc]
        have hd : (rest.drop (pat.length - 1)).length ≤ rest.length := by
          simp only [List.length_drop]
          omega
        rw [ih g' _ (le_trans hd hf') (le_trans hd hg')]
      · rw [replaceFuel, replaceFuel, if_neg hc, if_neg hc, ih g' rest hf' hg']

theorem replaceAux_of_not_mem (pat rep : List Char) (p0 : Char)
    (hp : pat.head? = some p0) :
    ∀ s : List Char, p0 ∉ s → replaceAux pat rep s = s := by
  intro s
  induction s with
  | nil => intro _; rfl
  | cons c rest ih =>
    intro hs
    have hc : c ≠ p0 := fun h => hs (h ▸ List.mem_cons_self c rest)
    have hcond : ¬ (pat ≠ [] ∧ pat.isPrefixOf (c :: rest)) := by
      rintro ⟨-, hpre⟩
      cases pat with
      | nil => simp at hp
      | cons q qs =>
        obtain rfl : q = p0 := by simpa using hp
        simp only [List.isPrefixOf, Bool.and_eq_true, beq_iff_eq] at hpre
        exact hc hpre.1.symm
    show replaceFuel pat rep (c :: rest).length (c :: rest) = c :: rest
    rw [List.length_cons, replaceFuel, if_neg hcond]
    exact congrArg (c :: ·) (ih (fun h => hs (List.mem_cons_of_mem c h)))

theorem replaceAux_append (pat rep s : List Char) (hne : pat ≠ []) :
    replaceAux pat rep (pat ++ s) = rep ++ replaceAux pat rep s := by
  cases pat with
  | nil => exact absurd rfl hne
  | cons p ps =>
    show replaceFuel (p :: ps) rep ((p :: ps) ++ s).length ((p :: ps) ++ s) = _
    rw [List.cons_append, List.length_cons, replaceFuel, if_pos]
    · have hd : (ps ++ s).drop ((p :: ps).length - 1) = s := by
        simp only [List.length_cons, Nat.add_sub_cancel]
        exact List.drop_left ps s
      rw [hd]
      have hlen : s.length ≤ (ps ++ s).length := by
        simp only [List.length_append]
        omega
      rw [replaceFuel_eq_of_le (p :: ps) rep _ s.length s hlen le_rfl]
      rfl
    · exact ⟨by simp, by rw [← List.cons_append]; exact isPrefixOf_append_self (p :: ps) s⟩

/-- The scheme upgrade of `start()`: since the regex-discovered address
consists only of digits, dots and colons, `replace('http://', 'https://')`
changes exactly the leading scheme. -/
theorem pyReplace_scheme (a : String) (h : 'h' ∉ a.data) :
    pyReplace ("http://" ++ a) "http://" "https://" = "https://" ++ a := by
  apply String.ext
  show replaceAux "http://".data "https://".data ("http://" ++ a).data =
    ("https://" ++ a).data
  have h1 : ("http://" ++ a).data = "http://".data ++ a.data := rfl
  have h2 : ("https://" ++ a).data = "https://".data ++ a.data := rfl
  rw [h1, h2, replaceAux_append _ _ _ (by decide),
    replaceAux_of_not_mem ("http://".data) ("https://".data) 'h' (by decide) a.data h]

theorem CrateNode_start_failed (env : StartEnv) (trace : List StartEv)
    (hrun : CrateNode_start env = (trace, none)) :
    ∃ pre, (∀ e ∈ pre, e.isProbe = true) ∧ trace = pre ++ startOnTimeout env := by
  rcases haddr : env.addr with - | a
  · simp only [CrateNode_start, haddr] at hrun
    injection hrun with h1 h2
    exact ⟨[], by simp, by rw [← h1]; rfl⟩
  · rcases hp : runWaitProbes env.portResults with ⟨pbs, pok⟩
    rcases hh : runWaitProbes env.healthResults with ⟨hbs, hok⟩
    simp only [CrateNode_start, haddr, hp, hh] at hrun
    cases pok with
    | false =>
      simp only [Bool.false_eq_true, if_false] at hrun
      injection hrun with h1 h2
      refine ⟨pbs.map StartEv.portProbe, ?_, h1.symm⟩
      intro e he
      obtain ⟨b, -, rfl⟩ := List.mem_map.mp he
      rfl
    | true =>
      cases hok with
      | true =>
        simp only [if_true] at hrun
        injection hrun with h1 h2
        exact absurd h2 (by simp)
      | false =>
        simp only [if_true, Bool.false_eq_true, if_false] at hrun
        injection hrun with h1 h2
        refine ⟨pbs.map StartEv.portProbe ++ StartEv.sslProbe env.ssl ::
          hbs.map StartEv.healthProbe, ?_, ?_⟩
        · intro e he
          rcases List.mem_append.mp he with hm | hm
          · obtain ⟨b, -, rfl⟩ := List.mem_map.mp hm
            rfl
          · rcases List.mem_cons.mp hm with rfl | hm'
            · rfl
            · obtain ⟨b, -, rfl⟩ := List.mem_map.mp hm'
              rfl
        · rw [← h1]

/-! ## Claims C5, C8 -/

/-- C5: in every run of `start()` that reaches Ready, the TLS probe is called
exactly once (at most once per supervised instance), strictly after the
port-open probe has succeeded and strictly before every health probe; the
final ready URL is `https://<addr>` when the TLS probe succeeded and stays
`http://<addr>` when it failed. -/
theorem C5_tls_probe_once_between_port_and_health (env : StartEnv) (a : String)
    (trace : List StartEv) (url : String)
    (haddr : env.addr = some a)
    (hchars : ∀ c ∈ a.data, c.isDigit ∨ c = '.' ∨ c = ':')
    (hrun : CrateNode_start env = (trace, some url)) :
    (∃ pbs hbs : List Bool,
      trace = pbs.map StartEv.portProbe ++
        StartEv.sslProbe env.ssl :: hbs.map StartEv.healthProbe ∧
      (∃ pre, pbs = pre ++ [true] ∧ ∀ b ∈ pre, b = false)) ∧
    trace.countP (fun e => e.isSsl) = 1 ∧
    url = (if env.ssl then "https://" else "http://") ++ a := by
  rcases hp : runWaitProbes env.portResults with ⟨pbs, pok⟩
  rcases hh : runWaitProbes env.healthResults with ⟨hbs, hok⟩
  simp only [CrateNode_start, haddr, hp, hh] at hrun
  cases pok with
  | false =>
    simp only [Bool.false_eq_true, if_false] at hrun
    injection hrun with h1 h2
    exact absurd h2 (by simp)
  | true =>
    cases hok with
    | false =>
      simp only [if_true, Bool.false_eq_true, if_false] at hrun
      injection hrun with h1 h2
      exact absurd h2 (by simp)
    | true =>
      simp only [if_true] at hrun
      injection hrun with h1 h2
      have htrace : trace = pbs.map StartEv.portProbe ++
          StartEv.sslProbe env.ssl :: hbs.map StartEv.healthProbe := h1.symm
      have hurl : (if env.ssl then pyReplace ("http://" ++ a) "http://" "https://"
          else "http://" ++ a) = url := by
        simpa using h2
      refine ⟨⟨pbs, hbs, htrace, runWaitProbes_eq_true env.portResults pbs hp⟩, ?_, ?_⟩
      · rw [htrace]
        rw [List.countP_append, List.countP_cons_of_pos _ _ (by rfl)]
        have h1 : (pbs.map StartEv.portProbe).countP (fun e => e.isSsl) = 0 := by
          rw [List.countP_eq_zero]
          intro e he
          obtain ⟨b, -, rfl⟩ := List.mem_map.mp he
          simp [StartEv.isSsl]
        have h2 : (hbs.map StartEv.healthProbe).countP (fun e => e.isSsl) = 0 := by
          rw [List.countP_eq_zero]
          intro e he
          obtain ⟨b, -, rfl⟩ := List.mem_map.mp he
          simp [StartEv.isSsl]
        rw [h1, h2]
      · have hh' : 'h' ∉ a.data := by
          intro hmem
          rcases hchars 'h' hmem with hd | hd | hd
          · exact absurd hd (by decide)
          · exact absurd hd (by decide)
          · exact absurd hd (by decide)
        rw [← hurl]
        cases hssl : env.ssl with
        | true => simp only [if_true]; exact pyReplace_scheme a hh'
        | false => simp only [Bool.false_eq_true, if_false]

/-- C5 witness: a run with address `127.0.0.1:4200`, an immediately-open
port, a successful TLS probe and an immediately-healthy cluster. -/
theorem C5_witness :
    CrateNode_start ⟨some "127.0.0.1:4200", [true], true, [true], [], none, "/l", "c"⟩ =
      ([StartEv.portProbe true, StartEv.sslProbe true, StartEv.healthProbe true],
        some "https://127.0.0.1:4200") ∧
    "https://127.0.0.1:4200" = (if true then "https://" else "http://") ++ "127.0.0.1:4200" := by
  constructor
  · decide
  · exact (C5_tls_probe_once_between_port_and_health
      ⟨some "127.0.0.1:4200", [true], true, [true], [], none, "/l", "c"⟩
      "127.0.0.1:4200"
      [StartEv.portProbe true, StartEv.sslProbe true, StartEv.healthProbe true]
      "https://127.0.0.1:4200" rfl (by decide) (by decide)).2.2

/-- C8: whenever a readiness stage of `start()` times out (the run raises),
then with an empty diagnostic buffer the handler attempts to read the log
file at `<logs_path>/<cluster_name>.log` (a silent no-op when the file is
absent, the final conjunct) and emits no buffered line; with a non-empty
buffer it emits every buffered line, in order, and never touches the log
file.  In both cases the diagnostics are a suffix of the trace — they are
fully emitted before the timeout error is re-raised (the `none` outcome). -/
theorem C8_timeout_diagnostics (env : StartEnv) (trace : List StartEv)
    (hrun : CrateNode_start env = (trace, none)) :
    (env.bufLines = [] →
      ∃ pre, (∀ e ∈ pre, e.isProbe = true) ∧
        trace = pre ++ try_print_log env.logfile env.logFileLines) ∧
    (env.bufLines ≠ [] →
      ∃ pre, (∀ e ∈ pre, e.isProbe = true) ∧
        trace = pre ++ env.bufLines.map StartEv.emitLine ∧
        ∀ p f, StartEv.readLogAttempt p f ∉ trace) ∧
    try_print_log env.logfile none = [StartEv.readLogAttempt env.logfile false] := by
  obtain ⟨pre, hpre, htrace⟩ := CrateNode_start_failed env trace hrun
  refine ⟨?_, ?_, rfl⟩
  · intro hbuf
    refine ⟨pre, hpre, ?_⟩
    rw [htrace, startOnTimeout, if_pos (by rw [hbuf]; rfl)]
  · intro hbuf
    have hempty : env.bufLines.isEmpty = false := by
      cases hb : env.bufLines with
      | nil => exact absurd hb hbuf
      | cons x xs => rfl
    have htr2 : trace = pre ++ env.bufLines.map StartEv.emitLine := by
      rw [htrace, startOnTimeout, if_neg (by rw [hempty]; exact Bool.false_ne_true)]
    refine ⟨pre, hpre, htr2, ?_⟩
    intro p f hmem
    rw [htr2] at hmem
    rcases List.mem_append.mp hmem with hm | hm
    · have := hpre _ hm
      simp [StartEv.isProbe] at this
    · obtain ⟨s, -, hs⟩ := List.mem_map.mp hm
      exact StartEv.noConfusion hs

/-- C8 witness: a run that times out at the port stage, once with an empty
buffer (the log file, here absent, is probed) and once with a non-empty
buffer (the buffered line is emitted, the log file is never touched). -/
theorem C8_witness :
    ([StartEv.portProbe false, StartEv.readLogAttempt "/l/c.log" false] =
      [] ++ try_print_log
        (StartEnv.logfile ⟨some "1.2.3.4:1", [false], false, [], [], none, "/l", "c"⟩)
        none ∨
      ∃ pre, (∀ e ∈ pre, e.isProbe = true) ∧
        [StartEv.portProbe false, StartEv.readLogAttempt "/l/c.log" false] =
          pre ++ try_print_log
            (StartEnv.logfile ⟨some "1.2.3.4:1", [false], false, [], [], none, "/l", "c"⟩)
            none) ∧
    (∃ pre, (∀ e ∈ pre, e.isProbe = true) ∧
      [StartEv.portProbe false, StartEv.emitLine "boom"] =
        pre ++ ["boom"].map StartEv.emitLine ∧
      ∀ p f, StartEv.readLogAttempt p f ∉
        [StartEv.portProbe false, StartEv.emitLine "boom"]) := by
  constructor
  · exact Or.inr ((C8_timeout_diagnostics
      ⟨some "1.2.3.4:1", [false], false, [], [], none, "/l", "c"⟩
      [StartEv.portProbe false, StartEv.readLogAttempt "/l/c.log" false]
      (by decide)).1 rfl)
  · exact (C8_timeout_diagnostics
      ⟨some "1.2.3.4:1", [false], false, [], ["boom"], none, "/l", "c"⟩
      [StartEv.portProbe false, StartEv.emitLine "boom"]
      (by decide)).2.1 (by decide)

/-! ## Helper lemmas: `stop()` -/

theorem splitCommaAux_ne_nil : ∀ (l acc : List Char), splitCommaAux acc l ≠ [] := by
  intro l
  induction l with
  | nil => intro acc; simp [splitCommaAux]
  | cons c rest ih =>
    intro acc
    rw [splitCommaAux]
    by_cases hc : c = ','
    · simp [hc]
    · simpa [hc] using ih (c :: acc)

theorem pySplitComma_ne_nil (s : String) : ∃ hd tl, pySplitComma s = hd :: tl := by
  rw [pySplitComma]
  cases h : splitCommaAux [] s.data with
  | nil => exact absurd h (splitCommaAux_ne_nil s.data [])
  | cons a l => exact ⟨⟨a⟩, l.map (fun x => ⟨x⟩), by simp⟩

theorem rmtreeLoop_ok_events :
    ∀ (paths fs fs' : List String) (evs : List StopEv),
      rmtreeLoop fs paths = (evs, .ok fs') → evs = paths.map StopEv.rmtreeCall := by
  intro paths
  induction paths with
  | nil =>
    intro fs fs' evs h
    rw [rmtreeLoop] at h
    injection h with h1 h2
    rw [← h1]; rfl
  | cons p rest ih =>
    intro fs fs' evs h
    rw [rmtreeLoop] at h
    cases hc : fs.contains p with
    | false =>
      rw [hc] at h
      simp only [Bool.false_eq_true, if_false] at h
      injection h with h1 h2
      exact absurd h2.symm (by simp)
    | true =>
      rw [hc] at h
      simp only [if_true] at h
      rcases hr : rmtreeLoop (fs.filter (fun q => q ≠ p)) rest with ⟨evs0, r⟩
      rw [hr] at h
      injection h with h1 h2
      subst h2
      rw [← h1, List.map_cons, ih _ fs' evs0 hr]

theorem rmtreeLoop_ok_subset :
    ∀ (paths fs fs' : List String) (evs : List StopEv),
      rmtreeLoop fs paths = (evs, .ok fs') → ∀ x ∈ fs', x ∈ fs := by
  intro paths
  induction paths with
  | nil =>
    intro fs fs' evs h
    rw [rmtreeLoop] at h
    injection h with h1 h2
    obtain rfl : fs = fs' := by injection h2
    exact fun x hx => hx
  | cons p rest ih =>
    intro fs fs' evs h
    rw [rmtreeLoop] at h
    cases hc : fs.contains p with
    | false =>
      rw [hc] at h
      simp only [Bool.false_eq_true, if_false] at h
      injection h with h1 h2
      exact absurd h2.symm (by simp)
    | true =>
      rw [hc] at h
      simp only [if_true] at h
      rcases hr : rmtreeLoop (fs.filter (fun q => q ≠ p)) rest with ⟨evs0, r⟩
      rw [hr] at h
      injection h with h1 h2
      subst h2
      intro x hx
      exact List.mem_of_mem_filter (ih _ fs' evs0 hr x hx)

theorem rmtreeLoop_ok_deleted :
    ∀ (paths fs fs' : List String) (evs : List StopEv),
      rmtreeLoop fs paths = (evs, .ok fs') → ∀ p ∈ paths, p ∉ fs' := by
  intro paths
  induction paths with
  | nil => intro fs fs' evs h p hp; simp at hp
  | cons q rest ih =>
    intro fs fs' evs h p hp
    rw [rmtreeLoop] at h
    cases hc : fs.contains q with
    | false =>
      rw [hc] at h
      simp only [Bool.false_eq_true, if_false] at h
      injection h with h1 h2
      exact absurd h2.symm (by simp)
    | true =>
      rw [hc] at h
      simp only [if_true] at h
      rcases hr : rmtreeLoop (fs.filter (fun x => x ≠ q)) rest with ⟨evs0, r⟩
      rw [hr] at h
      injection h with h1 h2
      subst h2
      rcases List.mem_cons.mp hp with rfl | hp'
      · intro hmem
        have := rmtreeLoop_ok_subset rest _ fs' evs0 hr p hmem
        exact absurd (List.of_mem_filter this) (by simp)
      · exact ih _ fs' evs0 hr p hp'

theorem rmtreeLoop_err :
    ∀ (paths fs : List String) (evs : List StopEv) (p : String),
      rmtreeLoop fs paths = (evs, .error p) →
      ∃ pre post, paths = pre ++ p :: post ∧
        evs = (pre ++ [p]).map StopEv.rmtreeCall := by
  intro paths
  induction paths with
  | nil =>
    intro fs evs p h
    rw [rmtreeLoop] at h
    injection h with h1 h2
    exact absurd h2.symm (by simp)
  | cons q rest ih =>
    intro fs evs p h
    rw [rmtreeLoop] at h
    cases hc : fs.contains q with
    | false =>
      rw [hc] at h
      simp only [Bool.false_eq_true, if_false] at h
      injection h with h1 h2
      obtain rfl : q = p := by injection h2
      exact ⟨[], rest, rfl, by rw [← h1]; rfl⟩
    | true =>
      rw [hc] at h
      simp only [if_true] at h
      rcases hr : rmtreeLoop (fs.filter (fun x => x ≠ q)) rest with ⟨evs0, r⟩
      rw [hr] at h
      injection h with h1 h2
      subst h2
      obtain ⟨pre, post, hsplit, hevs⟩ := ih _ evs0 p hr
      refine ⟨q :: pre, post, by rw [hsplit]; rfl, ?_⟩
      rw [← h1, hevs]
      rfl

/-! ## Claims C1, C9 -/

/-- C1 counterexample.  The claim states that a second `stop()` after a
first successful `stop()` is a no-op that neither raises nor attempts to
terminate the process handle again.  Take a node with a live process handle,
`keep_data = False` and data path `/tmp/a`, on a filesystem where `/tmp/a`
exists.  The first `stop()` terminates and deletes `/tmp/a`, but leaves the
object state (in particular `self.process`) unchanged; the second `stop()`
therefore calls `terminate()`/`communicate()` on the handle again and its
`shutil.rmtree('/tmp/a')` raises `FileNotFoundError`. -/
theorem C1_counterexample :
    (CrateNode_stop ⟨true, false, "/tmp/a"⟩ ["/tmp/a"]).2.1 = .ok [] ∧
    (CrateNode_stop ⟨true, false, "/tmp/a"⟩ ["/tmp/a"]).2.2 = ⟨true, false, "/tmp/a"⟩ ∧
    StopEv.terminate ∈ (CrateNode_stop ⟨true, false, "/tmp/a"⟩ []).1 ∧
    (CrateNode_stop ⟨true, false, "/tmp/a"⟩ []).2.1 = .error "/tmp/a" := by
  decide

/-- C1 (amended): `stop()` is not idempotent.  `stop()` never clears
`self.process`, so after any first `stop()` that succeeded (with a live
handle and `keep_data = False`), a second `stop()` attempts to terminate the
already-terminated handle again, and its deletion loop raises
`FileNotFoundError` on the first (already deleted) data path. -/
theorem C1_second_stop_terminates_again_and_raises (st : StopState)
    (fs fs' : List String) (evs : List StopEv)
    (hproc : st.process = true) (hkeep : st.keep_data = false)
    (h1 : CrateNode_stop st fs = (evs, .ok fs', st)) :
    StopEv.terminate ∈ (CrateNode_stop st fs').1 ∧
    ∃ p, (CrateNode_stop st fs').2.1 = .error p ∧ p ∈ pySplitComma st.data_path := by
  rcases hr : rmtreeLoop fs (pySplitComma st.data_path) with ⟨evs2, r⟩
  simp only [CrateNode_stop, hproc, hkeep, hr, if_true, Bool.false_eq_true, if_false] at h1
  injection h1 with he hrest
  injection hrest with hres hst
  obtain rfl : r = .ok fs' := hres
  obtain ⟨p0, tl, hsplit⟩ := pySplitComma_ne_nil st.data_path
  have hp0 : p0 ∈ pySplitComma st.data_path := by rw [hsplit]; exact List.mem_cons_self p0 tl
  have hdel : p0 ∉ fs' := rmtreeLoop_ok_deleted _ fs fs' evs2 hr p0 hp0
  have hcont : fs'.contains p0 = false :=
    Bool.eq_false_iff.mpr (fun hc => hdel (List.elem_iff.mp hc))
  have hloop2 : rmtreeLoop fs' (pySplitComma st.data_path) =
      ([.rmtreeCall p0], .error p0) := by
    rw [hsplit, rmtreeLoop, hcont]
    simp
  constructor
  · simp only [CrateNode_stop, hproc, hkeep, hloop2, if_true, Bool.false_eq_true, if_false]
    simp
  · refine ⟨p0, ?_, hp0⟩
    simp only [CrateNode_stop, hproc, hkeep, hloop2, if_true, Bool.false_eq_true, if_false]

/-- C1 witness: the amended theorem at a node with handle, data path `/d`,
and a filesystem where `/d` exists. -/
theorem C1_witness :
    StopEv.terminate ∈ (CrateNode_stop ⟨true, false, "/d"⟩ []).1 ∧
    ∃ p, (CrateNode_stop ⟨true, false, "/d"⟩ []).2.1 = .error p ∧
      p ∈ pySplitComma "/d" :=
  C1_second_stop_terminates_again_and_raises ⟨true, false, "/d"⟩ ["/d"] []
    [StopEv.terminate, StopEv.communicate, StopEv.rmtreeCall "/d"] rfl rfl (by decide)

/-- C9 counterexample.  The claim states that a deletion failure on one path
does not prevent the deletion attempt on the remaining paths.  Take
`data_path = "/tmp/a,/tmp/b"` on a filesystem where only `/tmp/b` exists:
`rmtree('/tmp/a')` raises, the loop aborts, and `/tmp/b` — whose deletion
would have succeeded — is never attempted. -/
theorem C9_counterexample :
    (CrateNode_stop ⟨false, false, "/tmp/a,/tmp/b"⟩ ["/tmp/b"]).1 =
      [StopEv.rmtreeCall "/tmp/a"] ∧
    StopEv.rmtreeCall "/tmp/b" ∉
      (CrateNode_stop ⟨false, false, "/tmp/a,/tmp/b"⟩ ["/tmp/b"]).1 ∧
    (CrateNode_stop ⟨false, false, "/tmp/a,/tmp/b"⟩ ["/tmp/b"]).2.1 =
      .error "/tmp/a" ∧
    "/tmp/b" ∈ ["/tmp/b"] := by
  decide

/-- C9 (amended): without the keep-data flag, `stop()` attempts deletion of
the comma-separated data paths in order; when every deletion succeeds, every
path is attempted and deleted; with the keep-data flag, no deletion is
attempted and the filesystem is untouched; but when a deletion fails, the
exception propagates immediately: exactly the paths up to and including the
failing one have been attempted, and the remaining paths are not. -/
theorem C9_teardown_loop (st : StopState) (fs : List String) :
    (st.keep_data = true →
      (CrateNode_stop st fs).1 =
        (if st.process then [StopEv.terminate, StopEv.communicate] else []) ∧
      (CrateNode_stop st fs).2.1 = .ok fs) ∧
    (st.keep_data = false →
      (∀ evs fs', CrateNode_stop st fs = (evs, .ok fs', st) →
        evs = (if st.process then [StopEv.terminate, StopEv.communicate] else []) ++
          (pySplitComma st.data_path).map StopEv.rmtreeCall ∧
        ∀ p ∈ pySplitComma st.data_path, p ∉ fs') ∧
      (∀ evs p, CrateNode_stop st fs = (evs, .error p, st) →
        ∃ pre post, pySplitComma st.data_path = pre ++ p :: post ∧
          evs = (if st.process then [StopEv.terminate, StopEv.communicate] else []) ++
            (pre ++ [p]).map StopEv.rmtreeCall)) := by
  refine ⟨?_, ?_⟩
  · intro hkeep
    simp only [CrateNode_stop, hkeep, if_true]
    constructor
    · cases hp : st.process <;> simp
    · cases hp : st.process <;> simp
  · intro hkeep
    constructor
    · intro evs fs' h
      rcases hr : rmtreeLoop fs (pySplitComma st.data_path) with ⟨evs2, r⟩
      simp only [CrateNode_stop, hkeep, hr, Bool.false_eq_true, if_false] at h
      injection h with he hrest
      injection hrest with hres hst
      obtain rfl : r = .ok fs' := hres
      constructor
      · rw [← he, rmtreeLoop_ok_events _ fs fs' evs2 hr]
      · exact rmtreeLoop_ok_deleted _ fs fs' evs2 hr
    · intro evs p h
      rcases hr : rmtreeLoop fs (pySplitComma st.data_path) with ⟨evs2, r⟩
      simp only [CrateNode_stop, hkeep, hr, Bool.false_eq_true, if_false] at h
      injection h with he hrest
      injection hrest with hres hst
      obtain rfl : r = .error p := hres
      obtain ⟨pre, post, hsplit, hevs⟩ := rmtreeLoop_err _ fs evs2 p hr
      exact ⟨pre, post, hsplit, by rw [← he, hevs]⟩

/-- C9 witness: the keep-data branch, the all-succeed branch and the failure
branch at concrete inputs. -/
theorem C9_witness :
    ((CrateNode_stop ⟨false, true, "/a,/b"⟩ ["/a", "/b"]).1 =
        (if false then [StopEv.terminate, StopEv.communicate] else []) ∧
      (CrateNode_stop ⟨false, true, "/a,/b"⟩ ["/a", "/b"]).2.1 = .ok ["/a", "/b"]) ∧
    ([StopEv.rmtreeCall "/a", StopEv.rmtreeCall "/b"] =
        (if false then [StopEv.terminate, StopEv.communicate] else []) ++
          (pySplitComma "/a,/b").map StopEv.rmtreeCall ∧
      ∀ p ∈ pySplitComma "/a,/b", p ∉ ([] : List String)) ∧
    (∃ pre post, pySplitComma "/a,/b" = pre ++ "/a" :: post ∧
      [StopEv.rmtreeCall "/a"] =
        (if false then [StopEv.terminate, StopEv.communicate] else []) ++
          (pre ++ ["/a"]).map StopEv.rmtreeCall) := by
  refine ⟨(C9_teardown_loop ⟨false, true, "/a,/b"⟩ ["/a", "/b"]).1 rfl, ?_, ?_⟩
  · exact ((C9_teardown_loop ⟨false, false, "/a,/b"⟩ ["/a", "/b"]).2 rfl).1
      [StopEv.rmtreeCall "/a", StopEv.rmtreeCall "/b"] [] (by decide)
  · exact ((C9_teardown_loop ⟨false, false, "/a,/b"⟩ []).2 rfl).2
      [StopEv.rmtreeCall "/a"] "/a" (by decide)

/-! ## Claim C10 -/

/-- C10 counterexample.  The claim states that constructing a `CrateNode`
never mutates the caller-supplied `env` dictionary.  But
`self.env = env or {}` aliases a non-empty caller dict, and
`self.env.setdefault('JAVA_HOME', ...)` then writes through the alias: for a
caller `env` of `{'FOO': '1'}` the caller's object holds a new `JAVA_HOME`
entry after construction. -/
theorem C10_counterexample :
    (crateNodeInit (some [("FOO", .s "1")]) none "jdk" "/tmp/d" (2, 0, 0)
        "/crate" false).callerEnv =
      some [("FOO", PyVal.s "1"), ("JAVA_HOME", PyVal.s "jdk")] ∧
    (crateNodeInit (some [("FOO", .s "1")]) none "jdk" "/tmp/d" (2, 0, 0)
        "/crate" false).callerEnv ≠ some [("FOO", PyVal.s "1")] := by
  decide

/-- C10 (amended): constructing a `CrateNode` never mutates the
caller-supplied `settings` dictionary (`_get_settings` merges into a fresh
copy of the defaults, and all later settings writes land on that copy).  The
caller-supplied `env` dictionary is left unmodified when it is `None`, empty,
or already has a `JAVA_HOME` key; but a non-empty caller `env` without
`JAVA_HOME` is mutated: construction appends a `JAVA_HOME` entry to the
caller's object. -/
theorem C10_settings_copied_env_aliased (env0 settings0 : Option PyDict)
    (jh tmp crate_dir : String) (v : ℕ × ℕ × ℕ) (kd : Bool) :
    (crateNodeInit env0 settings0 jh tmp v crate_dir kd).callerSettings = settings0 ∧
    (env0 = none →
      (crateNodeInit env0 settings0 jh tmp v crate_dir kd).callerEnv = none) ∧
    (∀ d, env0 = some d → d.isEmpty = true →
      (crateNodeInit env0 settings0 jh tmp v crate_dir kd).callerEnv = some d) ∧
    (∀ d, env0 = some d → d.hasKey "JAVA_HOME" = true →
      (crateNodeInit env0 settings0 jh tmp v crate_dir kd).callerEnv = some d) ∧
    (∀ d, env0 = some d → d.isEmpty = false → d.hasKey "JAVA_HOME" = false →
      (crateNodeInit env0 settings0 jh tmp v crate_dir kd).callerEnv =
        some (d ++ [("JAVA_HOME", PyVal.s jh)])) := by
  refine ⟨by simp [crateNodeInit], ?_, ?_, ?_, ?_⟩
  · intro h
    subst h
    simp [crateNodeInit]
  · intro d h hempty
    subst h
    simp [crateNodeInit, hempty]
  · intro d h hkey
    subst h
    have hempty : d.isEmpty = false := by
      cases d with
      | nil => exact absurd hkey (by simp [PyDict.hasKey])
      | cons kv rest => rfl
    simp [crateNodeInit, hempty, PyDict.setdefault, hkey]
  · intro d h hempty hkey
    subst h
    simp [crateNodeInit, hempty, PyDict.setdefault, hkey]

/-- C10 witness: the amended theorem at a caller `env` of
`{'FOO': '1'}` (mutated) and `{'JAVA_HOME': 'x'}` (untouched), with a
concrete caller `settings` dict (untouched). -/
theorem C10_witness :
    (crateNodeInit (some [("FOO", PyVal.s "1")]) (some [("a", PyVal.i 2)]) "jdk"
        "/t" (2, 0, 0) "/c" false).callerSettings = some [("a", PyVal.i 2)] ∧
    (crateNodeInit (some [("FOO", PyVal.s "1")]) (some [("a", PyVal.i 2)]) "jdk"
        "/t" (2, 0, 0) "/c" false).callerEnv =
      some ([("FOO", PyVal.s "1")] ++ [("JAVA_HOME", PyVal.s "jdk")]) ∧
    (crateNodeInit (some [("JAVA_HOME", PyVal.s "x")]) none "jdk"
        "/t" (2, 0, 0) "/c" false).callerEnv = some [("JAVA_HOME", PyVal.s "x")] :=
  ⟨(C10_settings_copied_env_aliased (some [("FOO", PyVal.s "1")])
      (some [("a", PyVal.i 2)]) "jdk" "/t" "/c" (2, 0, 0) false).1,
   (C10_settings_copied_env_aliased (some [("FOO", PyVal.s "1")])
      (some [("a", PyVal.i 2)]) "jdk" "/t" "/c" (2, 0, 0) false).2.2.2.2
      [("FOO", PyVal.s "1")] rfl rfl (by decide),
   (C10_settings_copied_env_aliased (some [("JAVA_HOME", PyVal.s "x")])
      none "jdk" "/t" "/c" (2, 0, 0) false).2.2.2.1
      [("JAVA_HOME", PyVal.s "x")] rfl (by decide)⟩
